import Mathlib

set_option maxHeartbeats 1000000

/-!
Verification of the event-routing core of the wlmaker toolkit container
(`src/toolkit/container.c`).  The container-side algorithms are embedded
directly from the C source.  A container owns an ordered list of children
(list head = front / topmost); each child is abstracted to its identity,
visibility, position, boxes, and its response functions for motion and
button delivery (a nested container's recursive answer is folded into the
response function, matching the `wlmtk_element_pointer_motion` /
`wlmtk_element_pointer_button` capability calls in the source, whose
element-side dispatch lives outside the provided sources and is described
by the spec's capability table).
-/

namespace Wlmtk

/-- Pointer coordinates are C doubles in the source; the focus-loss sentinel
sets them to NAN.  A coordinate is embedded as either a finite value or the
non-finite NAN marker. -/
inductive Coord where
  | nan : Coord
  | fin (v : Int) : Coord
deriving DecidableEq, Repr

/-- C comparison `(double)i <= x`: false when `x` is NAN. -/
def intLeCoord (i : Int) (c : Coord) : Bool :=
  match c with
  | .nan => false
  | .fin v => i ≤ v

/-- C comparison `x < (double)i`: false when `x` is NAN. -/
def coordLtInt (c : Coord) (i : Int) : Bool :=
  match c with
  | .nan => false
  | .fin v => v < i

/-- C subtraction `x - i` on a double: NAN propagates. -/
def coordSubInt (c : Coord) (i : Int) : Coord :=
  match c with
  | .nan => .nan
  | .fin v => .fin (v - i)

/-- The `wlmtk_pointer_motion_event_t` payload as delivered to an element:
coordinates in the target's local space plus a timestamp.  (The pointer
identity field does not affect any of the verified routines and is
omitted.) -/
structure MotionEvent where
  x : Coord
  y : Coord
  time_msec : Nat
deriving DecidableEq, Repr

/-- A box `(x1, y1, x2, y2)`, relative to an element's own origin. -/
structure Box where
  x1 : Int
  y1 : Int
  x2 : Int
  y2 : Int
deriving DecidableEq, Repr

/-- A child element as seen by one container: identity, visibility flag,
position in the container's space, its `get_dimensions` and
`get_pointer_area` boxes, and its accept/reject responses to the
capability calls `pointer_motion` and `pointer_button` (the booleans the
source reads back from `wlmtk_element_pointer_motion` and
`wlmtk_element_pointer_button`). -/
structure Child where
  id : Nat
  visible : Bool
  x : Int
  y : Int
  dims : Box
  area : Box
  motionAccepts : MotionEvent → Bool
  buttonAccepts : Nat → Bool

/-- Events the container delivers to elements, recorded as a trace:
motion (real or sentinel), button delivery, grab cancellation, keyboard
blur. -/
inductive Ev where
  | motion (target : Nat) (e : MotionEvent)
  | button (target : Nat) (btn : Nat) (phase : Nat)
  | grabCancel (target : Nat)
  | blur (target : Nat)
deriving DecidableEq, Repr

/-- The mutable slots of `wlmtk_container_t` (children list and the four
weak references), plus the cached last pointer position of the super
element (`last_pointer_motion_event`), used for root recomputation. -/
structure ContainerState where
  elements : List Child
  pointer_focus_element : Option Nat
  left_button_element : Option Nat
  pointer_grab_element : Option Nat
  keyboard_focus_element : Option Nat
  last_x : Coord
  last_y : Coord
  last_time : Nat

/-- The hit test of `update_pointer_focus_at`:
`x_pos + x1 <= x && x < x_pos + x2 && y_pos + y1 <= y && y < y_pos + y2`,
with the child's pointer area translated by its position. -/
def containsPoint (c : Child) (x y : Coord) : Bool :=
  intLeCoord (c.x + c.area.x1) x && coordLtInt x (c.x + c.area.x2) &&
  intLeCoord (c.y + c.area.y1) y && coordLtInt y (c.y + c.area.y2)

/-- The motion event translated into a child's local space:
`e.x = x - x_pos; e.y = y - y_pos`. -/
def localEvent (x y : Coord) (t : Nat) (c : Child) : MotionEvent :=
  ⟨coordSubInt x c.x, coordSubInt y c.y, t⟩

/-- The focus-loss sentinel: `e.x = NAN; e.y = NAN` with the timestamp
kept from the triggering update. -/
def sentinelEvent (t : Nat) : MotionEvent :=
  ⟨.nan, .nan, t⟩

/-- The child-scan loop of `update_pointer_focus_at` (container.c lines
800-843): walk the children front to back; skip invisible children and
children whose translated pointer area misses `(x,y)`; deliver the
translated motion to each remaining child; the first accepting child ends
the scan (after a sentinel to a differing previous holder); if none
accepts, a previous holder receives the sentinel and focus clears.
Returns (new focus holder, delivery trace, accepted). -/
def scanChildren (oldFocus : Option Nat) (x y : Coord) (t : Nat) :
    List Child → Option Nat × List Ev × Bool
  | [] =>
    match oldFocus with
    | some f => (none, [.motion f (sentinelEvent t)], false)
    | none => (none, [], false)
  | c :: rest =>
    if c.visible && containsPoint c x y then
      if c.motionAccepts (localEvent x y t c) then
        (some c.id,
         Ev.motion c.id (localEvent x y t c) ::
           (match oldFocus with
            | some f => if f = c.id then [] else [.motion f (sentinelEvent t)]
            | none => []),
         true)
      else
        ((scanChildren oldFocus x y t rest).1,
         Ev.motion c.id (localEvent x y t c) ::
           (scanChildren oldFocus x y t rest).2.1,
         (scanChildren oldFocus x y t rest).2.2)
    else
      scanChildren oldFocus x y t rest

/-- `update_pointer_focus_at` (container.c lines 778-844).  With an active
grab, the motion goes to the grab holder translated by the holder's
position and the call returns true unconditionally; otherwise the children
are scanned.  (The grab holder is always a current child: acquisition
asserts `container_ptr == element_ptr->parent_container_ptr`.) -/
def update_pointer_focus_at (s : ContainerState) (x y : Coord) (t : Nat) :
    ContainerState × List Ev × Bool :=
  match s.pointer_grab_element with
  | some gid =>
    match s.elements.find? (fun c => c.id == gid) with
    | some g => (s, [.motion gid (localEvent x y t g)], true)
    | none => (s, [], true)
  | none =>
    let r := scanChildren s.pointer_focus_element x y t s.elements
    ({ s with pointer_focus_element := r.1 }, r.2.1, r.2.2)

/-- `BTN_LEFT` from linux/input-event-codes.h. -/
def BTN_LEFT : Nat := 272

/-- Modelled from the spec: the phase values of `wlmtk_button_event_t`
(input.h is not among the provided sources); the spec names the phases
DOWN, UP, CLICK, DOUBLE_CLICK, carried in a C enum (int-backed, so values
outside the enum are representable). -/
def WLMTK_BUTTON_DOWN : Nat := 0

/-- Modelled from the spec: see `WLMTK_BUTTON_DOWN`. -/
def WLMTK_BUTTON_UP : Nat := 1

/-- Modelled from the spec: see `WLMTK_BUTTON_DOWN`. -/
def WLMTK_BUTTON_CLICK : Nat := 2

/-- Modelled from the spec: see `WLMTK_BUTTON_DOWN`. -/
def WLMTK_BUTTON_DOUBLE_CLICK : Nat := 3

/-- The boolean a delivery `wlmtk_element_pointer_button(id, event)` reads
back from the targeted child. -/
def childResponse (s : ContainerState) (eid : Nat) (phase : Nat) : Bool :=
  match s.elements.find? (fun c => c.id == eid) with
  | some c => c.buttonAccepts phase
  | none => false

/-- `_wlmtk_container_element_pointer_button` (container.c lines 576-646).
Returns `none` for the `bs_log(BS_FATAL, ...)` default branch (fatal
abort), and otherwise `some (state, trace, accepted)`. -/
def container_element_pointer_button (s : ContainerState)
    (btn : Nat) (phase : Nat) :
    Option (ContainerState × List Ev × Bool) :=
  match s.pointer_grab_element with
  | some gid => some (s, [.button gid btn phase], childResponse s gid phase)
  | none =>
    if btn = BTN_LEFT then
      if phase = WLMTK_BUTTON_DOWN then
        match s.pointer_focus_element with
        | some f =>
          let acc := childResponse s f phase
          some ({ s with left_button_element := if acc then some f else none },
            [.button f btn phase], acc)
        | none => some (s, [], false)
      else if phase = WLMTK_BUTTON_UP then
        match s.left_button_element with
        | some l => some (s, [.button l btn phase], childResponse s l phase)
        | none => some (s, [], false)
      else if phase = WLMTK_BUTTON_CLICK ∨ phase = WLMTK_BUTTON_DOUBLE_CLICK then
        match s.left_button_element with
        | some l =>
          if s.pointer_focus_element = some l then
            some (s, [.button l btn phase], childResponse s l phase)
          else
            some (s, [], false)
        | none => some (s, [], false)
      else
        none
    else
      match s.pointer_focus_element with
      | some f => some (s, [.button f btn phase], childResponse s f phase)
      | none => some (s, [], false)

/-- `INT32_MAX`, the loop initializer for the aggregated minima. -/
def INT32_MAX : Int := 2147483647

/-- `INT32_MIN`, the loop initializer for the aggregated maxima. -/
def INT32_MIN : Int := -2147483648

/-- The aggregation loop shared by `_wlmtk_container_element_get_dimensions`
and `_wlmtk_container_element_get_pointer_area` (container.c lines 466-482
and 513-529): fold min/max of each visible child's box (selected by
`proj`), translated by the child's position, starting from the
INT32_MAX/INT32_MIN sentinels. -/
def foldBoxLoop (proj : Child → Box) (cs : List Child) : Box :=
  cs.foldl
    (fun acc c =>
      if c.visible then
        ⟨min acc.x1 (c.x + (proj c).x1), min acc.y1 (c.y + (proj c).y1),
         max acc.x2 (c.x + (proj c).x2), max acc.y2 (c.y + (proj c).y2)⟩
      else acc)
    ⟨INT32_MAX, INT32_MAX, INT32_MIN, INT32_MIN⟩

/-- The per-axis normalization after the loop:
`if (left >= right) { left = 0; right = 0; }` and the same for top/bottom,
each axis independently. -/
def normalizeAxes (b : Box) : Box :=
  ⟨if b.x1 ≥ b.x2 then 0 else b.x1,
   if b.y1 ≥ b.y2 then 0 else b.y1,
   if b.x1 ≥ b.x2 then 0 else b.x2,
   if b.y1 ≥ b.y2 then 0 else b.y2⟩

/-- `_wlmtk_container_element_get_dimensions` (container.c lines 456-491). -/
def container_element_get_dimensions (cs : List Child) : Box :=
  normalizeAxes (foldBoxLoop (fun c => c.dims) cs)

/-- `_wlmtk_container_element_get_pointer_area` (container.c lines
503-538). -/
def container_element_get_pointer_area (cs : List Child) : Box :=
  normalizeAxes (foldBoxLoop (fun c => c.area) cs)

/-- A child's box (selected by `proj`) translated by the child's
position. -/
def translatedBox (proj : Child → Box) (c : Child) : Box :=
  ⟨c.x + (proj c).x1, c.y + (proj c).y1, c.x + (proj c).x2, c.y + (proj c).y2⟩

/-- Join of two boxes: the smallest box covering both. -/
def joinBox (a b : Box) : Box :=
  ⟨min a.x1 b.x1, min a.y1 b.y1, max a.x2 b.x2, max a.y2 b.y2⟩

/-- The union of a list of boxes, per the spec's words ("union of the
respective boxes of all visible children"); `none` when no box
contributes. -/
def unionOfBoxes : List Box → Option Box
  | [] => none
  | b :: rest => some (rest.foldl joinBox b)

/-- The translated boxes of the visible children, in order. -/
def visibleBoxes (proj : Child → Box) (cs : List Child) : List Box :=
  (cs.filter (fun c => c.visible)).map (translatedBox proj)

/-- A box whose four coordinates are representable C ints; the aggregation
loop runs on C `int` variables. -/
def boxInIntRange (b : Box) : Prop :=
  INT32_MIN ≤ b.x1 ∧ b.x1 ≤ INT32_MAX ∧ INT32_MIN ≤ b.y1 ∧ b.y1 ≤ INT32_MAX ∧
  INT32_MIN ≤ b.x2 ∧ b.x2 ≤ INT32_MAX ∧ INT32_MIN ≤ b.y2 ∧ b.y2 ≤ INT32_MAX

/-! ### Pointer grab along an ancestor chain

`wlmtk_container_pointer_grab` / `wlmtk_container_pointer_grab_release`
(container.c lines 308-358) recurse through the parent chain.  A chain is
a list of containers, index 0 the container where the call is made, the
last entry the root.  A grab/focus slot of a chain container holds either
one of its direct child elements or the super element of the chain
container one level below (`chainLink`). -/

/-- A weak reference held in a chain container's slot. -/
inductive Slot where
  | child (id : Nat)
  | chainLink
deriving DecidableEq, Repr

/-- A container on the ancestor chain: its grab and pointer-focus slots,
plus the cached last pointer position (only read at the root). -/
structure ChainCont where
  grab : Option Slot
  focus : Option Slot
  last_x : Coord
  last_y : Coord
deriving DecidableEq, Repr

/-- Events emitted along the chain: a `pointer_grab_cancel` capability
call, a focus-loss sentinel motion, or the root's full pointer-focus
recomputation from its cached position. -/
inductive ChainEv where
  | grabCancel (s : Slot)
  | leave (s : Slot)
  | recompute (x y : Coord)
deriving DecidableEq, Repr

/-- `wlmtk_container_pointer_grab` (container.c lines 308-337) over a
chain: no-op if the element already holds the grab; else cancel the
current holder, record the new one, recurse to the parent with this
container's super element (`chainLink`), and finally send the sentinel to
a differing pointer-focus holder. -/
def wlmtk_container_pointer_grab :
    List ChainCont → Slot → List ChainCont × List ChainEv
  | [], _ => ([], [])
  | c :: rest, e =>
    if c.grab = some e then (c :: rest, [])
    else
      let cancelTr : List ChainEv :=
        match c.grab with
        | some old => [.grabCancel old]
        | none => []
      let r := wlmtk_container_pointer_grab rest .chainLink
      let leaveTr : List ChainEv :=
        match c.focus with
        | some f => if f = e then [] else [.leave f]
        | none => []
      ({ c with grab := some e } :: r.1, cancelTr ++ r.2 ++ leaveTr)

/-- `wlmtk_container_pointer_grab_release` (container.c lines 340-358)
over a chain: no-op unless the element is the current holder; else clear
the slot and recurse to the parent; at the root (no parent) re-trigger
the focus computation from the cached last position. -/
def wlmtk_container_pointer_grab_release :
    List ChainCont → Slot → List ChainCont × List ChainEv
  | [], _ => ([], [])
  | c :: rest, e =>
    if c.grab = some e then
      match rest with
      | [] => ([{ c with grab := none }], [.recompute c.last_x c.last_y])
      | r1 :: rs =>
        let r := wlmtk_container_pointer_grab_release (r1 :: rs) .chainLink
        ({ c with grab := none } :: r.1, r.2)
    else (c :: rest, [])

/-- The reachable-state invariant of the grab chain: whenever a container
holds any grab, its parent's grab slot holds the in-chain descendant
(acquisition installs the whole chain, cancel and release clear it). -/
def chainUp : List ChainCont → Bool
  | [] => true
  | [_] => true
  | a :: b :: rest =>
    (a.grab == none || b.grab == some Slot.chainLink) && chainUp (b :: rest)

/-- Post-state of a grab acquisition: the head container holds the grabbed
element, every ancestor holds its in-chain descendant. -/
def grabChainOk (e : Slot) : List ChainCont → Prop
  | [] => True
  | h :: t => h.grab = some e ∧ ∀ s ∈ t, s.grab = some Slot.chainLink

/-! ### Keyboard focus in nested containers

`wlmtk_container_set_keyboard_focus_element` (container.c lines 361-382)
and `_wlmtk_container_element_keyboard_blur` (lines 701-710), embedded for
the spec's scenario C1 ⊃ C2 ⊃ leaf: container C2 (children: leaves,
identified by ids) nested in container C1 (whose keyboard-focus slot holds
either C2's super element or one of C1's other children). -/

/-- C1's keyboard-focus slot contents: C2's super element, or another
direct child of C1. -/
inductive C1Slot where
  | cont2
  | leaf (id : Nat)
deriving DecidableEq, Repr

/-- Keyboard-focus slots of the nested pair C1 ⊃ C2. -/
structure TwoLevelKb where
  c2_keyboard_focus : Option Nat
  c1_keyboard_focus : Option C1Slot
deriving DecidableEq, Repr

/-- Keyboard notifications delivered while setting/clearing focus. -/
inductive KbEv where
  | blurC2Child (id : Nat)
  | blurCont2
  | blurC1Leaf (id : Nat)
deriving DecidableEq, Repr

/-- `_wlmtk_container_element_keyboard_blur` at C2: blur the recorded
focus child (notification) and clear the slot; no-op without one. -/
def container_element_keyboard_blur_c2 (st : TwoLevelKb) :
    TwoLevelKb × List KbEv :=
  match st.c2_keyboard_focus with
  | none => (st, [])
  | some f => ({ st with c2_keyboard_focus := none }, [.blurC2Child f])

/-- `wlmtk_container_set_keyboard_focus_element` at C1 (the root of the
pair): early return when unchanged; blur the previous holder — for C2's
super element this runs C2's keyboard_blur; record the new slot value.  C1
has no parent, so no further propagation. -/
def set_keyboard_focus_element_c1 (st : TwoLevelKb) (e : Option C1Slot) :
    TwoLevelKb × List KbEv :=
  if st.c1_keyboard_focus = e then (st, [])
  else
    let blurred : TwoLevelKb × List KbEv :=
      match st.c1_keyboard_focus with
      | some .cont2 =>
        let r := container_element_keyboard_blur_c2 st
        (r.1, .blurCont2 :: r.2)
      | some (.leaf id) => (st, [.blurC1Leaf id])
      | none => (st, [])
    ({ blurred.1 with c1_keyboard_focus := e }, blurred.2)

/-- `wlmtk_container_set_keyboard_focus_element` at C2: early return when
unchanged; blur the previous holder; record the new one; then — C2 having
a parent — propagate to C1 substituting C2's own super element when the
new value is non-NULL, and the unchanged NULL when clearing (container.c
lines 375-381). -/
def set_keyboard_focus_element_c2 (st : TwoLevelKb) (e : Option Nat) :
    TwoLevelKb × List KbEv :=
  if st.c2_keyboard_focus = e then (st, [])
  else
    let blurTr : List KbEv :=
      match st.c2_keyboard_focus with
      | some f => [.blurC2Child f]
      | none => []
    let st1 := { st with c2_keyboard_focus := e }
    let e1 : Option C1Slot := if e.isSome then some .cont2 else none
    let r := set_keyboard_focus_element_c1 st1 e1
    (r.1, blurTr ++ r.2)

/-! ### Removal (root container) -/

/-- `wlmtk_container_remove_element` (container.c lines 233-264) for a
root container (no parent): unlink the element from the order; if it held
the pointer grab, cancel (the grab-cancel capability call) and clear; null
the left-button capture slot if it referenced the element; clear keyboard
focus (with blur) if it referenced the element; then update_layout — which
at a root falls through to the pointer-focus recomputation from the cached
position — followed by the explicit recomputation.  The returned boolean
is the conjunction of the two closing `BS_ASSERT`s: the removed element is
referenced by neither the pointer-focus nor the keyboard-focus slot. -/
def wlmtk_container_remove_element (s : ContainerState) (eid : Nat) :
    ContainerState × List Ev × Bool :=
  let s1 := { s with elements := s.elements.filter (fun c => !(c.id == eid)) }
  let g :=
    if s1.pointer_grab_element = some eid then
      (({ s1 with pointer_grab_element := none } : ContainerState),
       [Ev.grabCancel eid])
    else (s1, ([] : List Ev))
  let s2 := g.1
  let s3 :=
    if s2.left_button_element = some eid then
      { s2 with left_button_element := none }
    else s2
  let k :=
    if s3.keyboard_focus_element = some eid then
      (({ s3 with keyboard_focus_element := none } : ContainerState),
       [Ev.blur eid])
    else (s3, ([] : List Ev))
  let s4 := k.1
  let r1 := update_pointer_focus_at s4 s4.last_x s4.last_y s4.last_time
  let r2 := update_pointer_focus_at r1.1 s4.last_x s4.last_y s4.last_time
  let ok := (r2.1.pointer_focus_element != some eid) &&
            (r2.1.keyboard_focus_element != some eid)
  (r2.1, g.2 ++ k.2 ++ r1.2.1 ++ r2.2.1, ok)

/-! ### Spec-side vocabulary for the scan -/

/-- A child wins the scan at `(x,y)`: visible, pointer area (translated by
its position) contains the point, and it accepts the translated motion. -/
def acceptsHere (x y : Coord) (t : Nat) (c : Child) : Bool :=
  c.visible && containsPoint c x y && c.motionAccepts (localEvent x y t c)

/-- The deliveries to the visible, containing children scanned (and
rejected) before the first acceptor: the front-to-back prefix strictly
before the winner, filtered to the children that receive the probe. -/
def probeTrace (x y : Coord) (t : Nat) (cs : List Child) : List Ev :=
  ((cs.takeWhile (fun c => !acceptsHere x y t c)).filter
    (fun c => c.visible && containsPoint c x y)).map
    (fun c => .motion c.id (localEvent x y t c))

/-- The sentinel delivery closing a scan: sent to the previous focus
holder exactly when one existed and differs from the new holder. -/
def leaveTrace (oldFocus : Option Nat) (winner : Option Nat) (t : Nat) :
    List Ev :=
  match oldFocus with
  | some f => if winner = some f then [] else [.motion f (sentinelEvent t)]
  | none => []

/-- An event is a focus-loss sentinel: a motion whose coordinates are both
non-finite. -/
def isLeave (ev : Ev) : Bool :=
  match ev with
  | .motion _ e => e.x == Coord.nan && e.y == Coord.nan
  | _ => false

/-- An event is a sentinel motion to a given target. -/
def isLeaveTo (ev : Ev) (target : Nat) : Bool :=
  match ev with
  | .motion tgt e => tgt == target && e.x == Coord.nan && e.y == Coord.nan
  | _ => false

/-- An event is a real (finite-coordinate) motion to a given target. -/
def isEnterTo (ev : Ev) (target : Nat) : Bool :=
  match ev with
  | .motion tgt e => tgt == target && !(e.x == Coord.nan) && !(e.y == Coord.nan)
  | _ => false

/-- The ordering asserted by the claim on a delivery trace: every sentinel
to the old holder precedes every real motion to the new holder. -/
def leaveBeforeEnter (tr : List Ev) (oldId newId : Nat) : Prop :=
  ∀ i j ev1 ev2, tr.get? i = some ev1 → tr.get? j = some ev2 →
    isLeaveTo ev1 oldId = true → isEnterTo ev2 newId = true → i < j

/-! ### Concrete example states -/

/-- A 10×10 box at the origin. -/
def boxTen : Box := ⟨0, 0, 10, 10⟩

/-- A visible child that accepts every motion and button delivery. -/
def acceptChild (i : Nat) (px py : Int) : Child :=
  ⟨i, true, px, py, boxTen, boxTen, fun _ => true, fun _ => true⟩

/-- A visible child that rejects every motion and button delivery. -/
def rejectChild (i : Nat) (px py : Int) : Child :=
  ⟨i, true, px, py, boxTen, boxTen, fun _ => false, fun _ => false⟩

/-- A rejecting child in front, an accepting child behind it at the same
spot, an accepting child far away that currently holds pointer focus. -/
def sC1 : ContainerState :=
  ⟨[rejectChild 1 0 0, acceptChild 2 0 0, acceptChild 3 100 100],
   some 3, none, none, none, .fin 0, .fin 0, 0⟩

/-- Pointer focus on child 2 (at (100,100)); child 1 covers the origin. -/
def sC2 : ContainerState :=
  ⟨[acceptChild 1 0 0, acceptChild 2 100 100],
   some 2, none, none, none, .fin 0, .fin 0, 0⟩

/-- Pointer focus on child 2, left-button capture on child 1 (the pointer
pressed over child 1 and has moved over child 2 since). -/
def sC3 : ContainerState :=
  ⟨[acceptChild 1 0 0, acceptChild 2 20 0],
   some 2, some 1, none, none, .fin 25, .fin 5, 0⟩

/-- A single rejecting child holding the pointer grab. -/
def sC5 : ContainerState :=
  ⟨[rejectChild 7 3 4], none, none, some 7, none, .fin 0, .fin 0, 0⟩

/-- A rejecting child in front of an accepting child; stale focus on 1. -/
def sC9 : ContainerState :=
  ⟨[rejectChild 1 0 0, acceptChild 2 5 0],
   some 1, none, none, none, .fin 0, .fin 0, 0⟩

/-- An empty container. -/
def sC10 : ContainerState :=
  ⟨[], none, none, none, none, .fin 0, .fin 0, 0⟩

/-- A visible child whose dimensions box has zero width (degenerate x
axis), and an invisible child that must contribute nothing. -/
def csC8 : List Child :=
  [⟨1, true, 4, 9, ⟨0, 0, 0, 5⟩, ⟨-1, -2, 1, 7⟩, fun _ => true, fun _ => true⟩,
   ⟨2, false, 100, 100, boxTen, boxTen, fun _ => true, fun _ => true⟩]

/-- A three-container chain (index 0 deepest, index 2 the root, cached
position (3,4)); the deepest container has pointer focus on child 9. -/
def lC4 : List ChainCont :=
  [⟨none, some (.child 9), .fin 1, .fin 2⟩,
   ⟨none, none, .fin 0, .fin 0⟩,
   ⟨none, none, .fin 3, .fin 4⟩]

/-- Nested keyboard-focus pair with both slots empty. -/
def kb0 : TwoLevelKb := ⟨none, none⟩

/-- Child 1: holds the pointer grab in `sC7`. -/
def gC7 : Child := ⟨1, true, 0, 0, boxTen, boxTen, fun _ => true, fun _ => true⟩

/-- Child 2: the pointer-focus holder in `sC7`. -/
def eC7 : Child := ⟨2, true, 20, 0, boxTen, boxTen, fun _ => true, fun _ => true⟩

/-- A container where child 1 holds the pointer grab while child 2 holds
pointer focus (reachable: motion over child 2, then grab by child 1 —
`wlmtk_container_pointer_grab` sends the old focus holder a sentinel but
does not clear the focus slot). -/
def sC7 : ContainerState :=
  ⟨[gC7, eC7], some 2, none, some 1, none, .fin 25, .fin 5, 3⟩

/-! ## Theorems -/

/-- Characterization of the child-scan loop: the result is determined by
the first child that is visible, contains the point, and accepts; the
trace is the probes to the rejecting visible containing prefix, then the
winner's motion, then the sentinel to a differing previous holder (or,
with no winner, the probes followed by the sentinel to the previous
holder). -/
theorem scanChildren_characterization (oldF : Option Nat) (x y : Coord)
    (t : Nat) :
    ∀ cs : List Child,
    scanChildren oldF x y t cs =
      match cs.find? (acceptsHere x y t) with
      | some w =>
        (some w.id,
         probeTrace x y t cs ++
           Ev.motion w.id (localEvent x y t w) :: leaveTrace oldF (some w.id) t,
         true)
      | none =>
        (none, probeTrace x y t cs ++ leaveTrace oldF none t, false)
  | [] => by
    cases oldF <;> simp [scanChildren, probeTrace, leaveTrace]
  | c :: cs => by
    by_cases h1 : (c.visible && containsPoint c x y) = true
    · by_cases h2 : c.motionAccepts (localEvent x y t c) = true
      · have ha : acceptsHere x y t c = true := by
          simp only [acceptsHere, h2, Bool.and_true]
          exact h1
        rw [List.find?_cons_of_pos _ ha]
        have hp : probeTrace x y t (c :: cs) = [] := by
          simp [probeTrace, List.takeWhile_cons, ha]
        rw [hp, List.nil_append]
        show (if (c.visible && containsPoint c x y) = true then _ else _) = _
        rw [if_pos h1, if_pos h2]
        cases oldF with
        | none => simp [leaveTrace]
        | some f =>
          simp only [leaveTrace, Option.some.injEq]
          by_cases hf : f = c.id
          · simp [hf]
          · rw [if_neg hf, if_neg (by omega)]
            simp
      · have h2f : c.motionAccepts (localEvent x y t c) = false := by
          simpa using h2
        have ha : acceptsHere x y t c = false := by
          simp [acceptsHere, h2f]
        rw [List.find?_cons_of_neg _ (by simp [ha])]
        have hp : probeTrace x y t (c :: cs) =
            Ev.motion c.id (localEvent x y t c) :: probeTrace x y t cs := by
          simp [probeTrace, List.takeWhile_cons, ha, List.filter_cons, h1]
        have ih := scanChildren_characterization oldF x y t cs
        rw [hp]
        show (if (c.visible && containsPoint c x y) = true then _ else _) = _
        rw [if_pos h1, if_neg (by simp [h2f])]
        rw [ih]
        cases hfind : cs.find? (acceptsHere x y t) <;> simp
    · have h1f : (c.visible && containsPoint c x y) = false := by
        simpa using h1
      have ha : acceptsHere x y t c = false := by
        simp [acceptsHere, h1f]
      rw [List.find?_cons_of_neg _ (by simp [ha])]
      have hp : probeTrace x y t (c :: cs) = probeTrace x y t cs := by
        simp [probeTrace, List.takeWhile_cons, ha, List.filter_cons, h1f]
      have ih := scanChildren_characterization oldF x y t cs
      rw [hp]
      show (if (c.visible && containsPoint c x y) = true then _ else _) = _
      rw [if_neg (by simp [h1f])]
      exact ih

/-- A contained point has finite coordinates (every comparison against a
NAN coordinate is false). -/
theorem containsPoint_fin {c : Child} {x y : Coord}
    (h : containsPoint c x y = true) :
    (∃ a, x = Coord.fin a) ∧ (∃ b, y = Coord.fin b) := by
  cases x with
  | nan => simp [containsPoint, intLeCoord] at h
  | fin a =>
    cases y with
    | nan => simp [containsPoint, intLeCoord, coordLtInt] at h
    | fin b => exact ⟨⟨a, rfl⟩, ⟨b, rfl⟩⟩

/-- No probe delivery is a sentinel: probes go only to children containing
the point, so their translated coordinates are finite. -/
theorem probeTrace_not_leave (x y : Coord) (t : Nat) (cs : List Child) :
    ∀ ev ∈ probeTrace x y t cs, isLeave ev = false := by
  intro ev hev
  simp only [probeTrace, List.mem_map, List.mem_filter] at hev
  obtain ⟨c, ⟨_, hc⟩, rfl⟩ := hev
  have hcont : containsPoint c x y = true := by
    simp only [Bool.and_eq_true] at hc
    exact hc.2
  obtain ⟨⟨a, hx⟩, _⟩ := containsPoint_fin hcont
  subst hx
  simp [isLeave, localEvent, coordSubInt]

/-- Claim C1: with no pointer grab active, `update_pointer_focus_at` scans
the children front to back; each visible child whose translated pointer
area contains `(x,y)` receives the translated motion up to the first
acceptor, which becomes the pointer-focus holder while the call reports
accepted; if no child accepts, a pre-existing focus holder receives the
non-finite sentinel motion, the focus slot is cleared, and the call
reports false. -/
theorem claim_c1_focus_update (s : ContainerState) (x y : Coord) (t : Nat)
    (hgrab : s.pointer_grab_element = none) :
    (∀ w, s.elements.find? (acceptsHere x y t) = some w →
      update_pointer_focus_at s x y t =
        ({ s with pointer_focus_element := some w.id },
         probeTrace x y t s.elements ++
           Ev.motion w.id (localEvent x y t w) ::
             leaveTrace s.pointer_focus_element (some w.id) t,
         true)) ∧
    (s.elements.find? (acceptsHere x y t) = none →
      update_pointer_focus_at s x y t =
        ({ s with pointer_focus_element := none },
         probeTrace x y t s.elements ++
           leaveTrace s.pointer_focus_element none t,
         false)) := by
  have hc := scanChildren_characterization s.pointer_focus_element x y t
    s.elements
  constructor
  · intro w hw
    rw [hw] at hc
    simp [update_pointer_focus_at, hgrab, hc]
  · intro hw
    rw [hw] at hc
    simp [update_pointer_focus_at, hgrab, hc]

/-- Witness for C1: in `sC1` at (5,5), the front child is probed and
rejects, the second child accepts and becomes the holder, and the old
holder (child 3) receives the sentinel, in that order. -/
theorem claim_c1_focus_update_witness :
    update_pointer_focus_at sC1 (.fin 5) (.fin 5) 9 =
      ({ sC1 with pointer_focus_element := some 2 },
       [Ev.motion 1 ⟨.fin 5, .fin 5, 9⟩, Ev.motion 2 ⟨.fin 5, .fin 5, 9⟩,
        Ev.motion 3 (sentinelEvent 9)], true) := by
  have h := (claim_c1_focus_update sC1 (.fin 5) (.fin 5) 9 rfl).1
    (acceptChild 2 0 0) rfl
  exact h.trans (by rfl)

/-- Claim C2 counterexample: in `sC2` focus moves from child 2 to child 1,
and the delivery order is enter-then-leave — the real motion to the new
holder is the acceptance probe and precedes the sentinel to the old
holder, refuting the claimed leave-before-enter order. -/
theorem claim_c2_counterexample :
    sC2.pointer_focus_element = some 2 ∧
    (update_pointer_focus_at sC2 (.fin 5) (.fin 5) 0).1.pointer_focus_element
      = some 1 ∧
    ¬ leaveBeforeEnter
        ((update_pointer_focus_at sC2 (.fin 5) (.fin 5) 0).2.1) 2 1 := by
  refine ⟨rfl, rfl, ?_⟩
  intro h
  have h10 := h 1 0 (Ev.motion 2 (sentinelEvent 0))
    (Ev.motion 1 ⟨.fin 5, .fin 5, 0⟩) rfl rfl (by decide) (by decide)
  omega

/-- Claim C2 (amended): when a no-grab pointer-focus update changes the
holder from `f` to a different winner `w`, the winner receives the real
motion first (it is the acceptance probe) and the sentinel to the old
holder follows immediately after it; the sentinel goes only to the old
holder, the real motion only to the new one, so the leave/enter pair never
targets the same element. -/
theorem claim_c2_enter_then_leave (s : ContainerState) (x y : Coord)
    (t : Nat) (w : Child) (f : Nat)
    (hgrab : s.pointer_grab_element = none)
    (hw : s.elements.find? (acceptsHere x y t) = some w)
    (hold : s.pointer_focus_element = some f) (hne : f ≠ w.id) :
    (update_pointer_focus_at s x y t).2.1 =
      probeTrace x y t s.elements ++
        [Ev.motion w.id (localEvent x y t w), Ev.motion f (sentinelEvent t)] ∧
    (update_pointer_focus_at s x y t).1.pointer_focus_element = some w.id ∧
    isEnterTo (Ev.motion w.id (localEvent x y t w)) w.id = true ∧
    isLeaveTo (Ev.motion f (sentinelEvent t)) f = true ∧
    w.id ≠ f := by
  have h := (claim_c1_focus_update s x y t hgrab).1 w hw
  have hacc : acceptsHere x y t w = true := List.find?_some hw
  have hcont : containsPoint w x y = true := by
    simp only [acceptsHere, Bool.and_eq_true] at hacc
    exact hacc.1.2
  obtain ⟨⟨a, hx⟩, ⟨b, hy⟩⟩ := containsPoint_fin hcont
  subst hx
  subst hy
  refine ⟨?_, ?_, ?_, ?_, ?_⟩
  · rw [h]
    have hlt : leaveTrace s.pointer_focus_element (some w.id) t =
        [Ev.motion f (sentinelEvent t)] := by
      rw [hold]
      simp only [leaveTrace]
      rw [if_neg (fun hcon => hne (Option.some.inj hcon).symm)]
    rw [hlt]
  · rw [h]
  · simp [isEnterTo, localEvent, coordSubInt]
  · simp [isLeaveTo, sentinelEvent]
  · exact fun hh => hne hh.symm

/-- Witness for the amended C2: the concrete trace in `sC2`. -/
theorem claim_c2_enter_then_leave_witness :
    (update_pointer_focus_at sC2 (.fin 5) (.fin 5) 0).2.1 =
      [Ev.motion 1 ⟨.fin 5, .fin 5, 0⟩, Ev.motion 2 (sentinelEvent 0)] ∧
    (update_pointer_focus_at sC2 (.fin 5) (.fin 5) 0).1.pointer_focus_element
      = some 1 := by
  have h := claim_c2_enter_then_leave sC2 (.fin 5) (.fin 5) 0
    (acceptChild 1 0 0) 2 rfl rfl rfl (by decide)
  exact ⟨h.1.trans (by rfl), h.2.1⟩

/-- Claim C5: with an active pointer grab, the update delivers a single
motion to the grab holder, translated by the holder's position, performs
no hit-testing (no other delivery, no state change), and reports accepted
unconditionally — independent of the holder's own accept/reject answer. -/
theorem claim_c5_grab_delivery (s : ContainerState) (x y : Coord) (t : Nat)
    (gid : Nat) (g : Child)
    (hgrab : s.pointer_grab_element = some gid)
    (hfind : s.elements.find? (fun c => c.id == gid) = some g) :
    update_pointer_focus_at s x y t =
      (s, [Ev.motion gid (localEvent x y t g)], true) := by
  simp [update_pointer_focus_at, hgrab, hfind]

/-- Witness for C5: the grab holder in `sC5` rejects every motion, yet the
update reports accepted and delivers the translated motion to it. -/
theorem claim_c5_grab_delivery_witness :
    (sC5.elements.find? (fun c => c.id == 7)).isSome = true ∧
    update_pointer_focus_at sC5 (.fin 5) (.fin 6) 1 =
      (sC5, [Ev.motion 7 ⟨.fin 2, .fin 2, 1⟩], true) ∧
    (rejectChild 7 3 4).motionAccepts ⟨.fin 2, .fin 2, 1⟩ = false := by
  refine ⟨rfl, ?_, rfl⟩
  have h := claim_c5_grab_delivery sC5 (.fin 5) (.fin 6) 1 7
    (rejectChild 7 3 4) rfl rfl
  exact h.trans (by rfl)

/-- Claim C9: hit-testing is idempotent absent mutation: with no grab,
running the update twice at the same position yields the same focus holder
and the second run delivers no sentinel motion to any element. -/
theorem claim_c9_idempotent (s : ContainerState) (x y : Coord) (t : Nat)
    (hgrab : s.pointer_grab_element = none) :
    ((update_pointer_focus_at (update_pointer_focus_at s x y t).1 x y
        t).1.pointer_focus_element
      = (update_pointer_focus_at s x y t).1.pointer_focus_element) ∧
    ∀ ev ∈ (update_pointer_focus_at (update_pointer_focus_at s x y t).1 x y
        t).2.1, isLeave ev = false := by
  have hc1 := scanChildren_characterization s.pointer_focus_element x y t
    s.elements
  cases hfind : s.elements.find? (acceptsHere x y t) with
  | some w =>
    rw [hfind] at hc1
    have h1 : update_pointer_focus_at s x y t =
        ({ s with pointer_focus_element := some w.id },
         probeTrace x y t s.elements ++
           Ev.motion w.id (localEvent x y t w) ::
             leaveTrace s.pointer_focus_element (some w.id) t,
         true) := by
      simp [update_pointer_focus_at, hgrab, hc1]
    rw [h1]
    have hc2 := scanChildren_characterization (some w.id) x y t s.elements
    rw [hfind] at hc2
    have h2 : update_pointer_focus_at
        ({ s with pointer_focus_element := some w.id }) x y t =
        ({ s with pointer_focus_element := some w.id },
         probeTrace x y t s.elements ++ [Ev.motion w.id (localEvent x y t w)],
         true) := by
      simp [update_pointer_focus_at, hgrab, hc2, leaveTrace]
    rw [h2]
    refine ⟨rfl, ?_⟩
    intro ev hev
    simp only [List.mem_append, List.mem_singleton] at hev
    rcases hev with hev | hev
    · exact probeTrace_not_leave x y t s.elements ev hev
    · subst hev
      have hacc : acceptsHere x y t w = true := List.find?_some hfind
      have hcont : containsPoint w x y = true := by
        simp only [acceptsHere, Bool.and_eq_true] at hacc
        exact hacc.1.2
      obtain ⟨⟨a, hx⟩, _⟩ := containsPoint_fin hcont
      subst hx
      simp [isLeave, localEvent, coordSubInt]
  | none =>
    rw [hfind] at hc1
    have h1 : update_pointer_focus_at s x y t =
        ({ s with pointer_focus_element := none },
         probeTrace x y t s.elements ++
           leaveTrace s.pointer_focus_element none t,
         false) := by
      simp [update_pointer_focus_at, hgrab, hc1]
    rw [h1]
    have hc2 := scanChildren_characterization none x y t s.elements
    rw [hfind] at hc2
    have h2 : update_pointer_focus_at
        ({ s with pointer_focus_element := none }) x y t =
        ({ s with pointer_focus_element := none },
         probeTrace x y t s.elements,
         false) := by
      simp [update_pointer_focus_at, hgrab, hc2, leaveTrace]
    rw [h2]
    refine ⟨rfl, ?_⟩
    intro ev hev
    exact probeTrace_not_leave x y t s.elements ev hev

/-- Witness for C9: in `sC9`, both runs focus child 2, and the second run
delivers no sentinel (it re-probes child 1 and re-delivers to child 2,
both with finite coordinates). -/
theorem claim_c9_idempotent_witness :
    ((update_pointer_focus_at (update_pointer_focus_at sC9 (.fin 6) (.fin 2)
        0).1 (.fin 6) (.fin 2) 0).1.pointer_focus_element = some 2) ∧
    ((update_pointer_focus_at sC9 (.fin 6) (.fin 2)
        0).1.pointer_focus_element = some 2) ∧
    ((update_pointer_focus_at (update_pointer_focus_at sC9 (.fin 6) (.fin 2)
        0).1 (.fin 6) (.fin 2) 0).2.1.all (fun ev => !isLeave ev) = true) := by
  have h := claim_c9_idempotent sC9 (.fin 6) (.fin 2) 0 rfl
  refine ⟨h.1.trans (by rfl), by rfl, ?_⟩
  rw [List.all_eq_true]
  intro ev hev
  have := h.2 ev hev
  simp [this]

/-- Claim C3: the left-button gesture machine with no grab active.  DOWN
goes to the pointer-focus holder and records it as capture holder exactly
when accepted (cleared otherwise); UP goes to the capture holder
regardless of the current focus holder; CLICK and DOUBLE_CLICK are
delivered only when the capture holder is also the current focus holder,
and otherwise report unaccepted with no delivery. -/
theorem claim_c3_left_button_capture (s : ContainerState)
    (hgrab : s.pointer_grab_element = none) :
    (∀ f, s.pointer_focus_element = some f →
      container_element_pointer_button s BTN_LEFT WLMTK_BUTTON_DOWN =
        some ({ s with left_button_element :=
                  if childResponse s f WLMTK_BUTTON_DOWN then some f
                  else none },
              [Ev.button f BTN_LEFT WLMTK_BUTTON_DOWN],
              childResponse s f WLMTK_BUTTON_DOWN)) ∧
    (∀ l, s.left_button_element = some l →
      container_element_pointer_button s BTN_LEFT WLMTK_BUTTON_UP =
        some (s, [Ev.button l BTN_LEFT WLMTK_BUTTON_UP],
              childResponse s l WLMTK_BUTTON_UP)) ∧
    (∀ l, s.left_button_element = some l → s.pointer_focus_element = some l →
      container_element_pointer_button s BTN_LEFT WLMTK_BUTTON_CLICK =
        some (s, [Ev.button l BTN_LEFT WLMTK_BUTTON_CLICK],
              childResponse s l WLMTK_BUTTON_CLICK) ∧
      container_element_pointer_button s BTN_LEFT WLMTK_BUTTON_DOUBLE_CLICK =
        some (s, [Ev.button l BTN_LEFT WLMTK_BUTTON_DOUBLE_CLICK],
              childResponse s l WLMTK_BUTTON_DOUBLE_CLICK)) ∧
    (s.left_button_element = none →
      container_element_pointer_button s BTN_LEFT WLMTK_BUTTON_CLICK =
        some (s, [], false) ∧
      container_element_pointer_button s BTN_LEFT WLMTK_BUTTON_DOUBLE_CLICK =
        some (s, [], false)) ∧
    (∀ l, s.left_button_element = some l →
      s.pointer_focus_element ≠ some l →
      container_element_pointer_button s BTN_LEFT WLMTK_BUTTON_CLICK =
        some (s, [], false) ∧
      container_element_pointer_button s BTN_LEFT WLMTK_BUTTON_DOUBLE_CLICK =
        some (s, [], false)) := by
  refine ⟨?_, ?_, ?_, ?_, ?_⟩
  · intro f hf
    simp [container_element_pointer_button, hgrab, hf,
      WLMTK_BUTTON_DOWN]
  · intro l hl
    simp [container_element_pointer_button, hgrab, hl,
      WLMTK_BUTTON_DOWN, WLMTK_BUTTON_UP]
  · intro l hl hf
    constructor <;>
      simp [container_element_pointer_button, hgrab, hl, hf,
        WLMTK_BUTTON_DOWN, WLMTK_BUTTON_UP, WLMTK_BUTTON_CLICK,
        WLMTK_BUTTON_DOUBLE_CLICK]
  · intro hl
    constructor <;>
      simp [container_element_pointer_button, hgrab, hl,
        WLMTK_BUTTON_DOWN, WLMTK_BUTTON_UP, WLMTK_BUTTON_CLICK,
        WLMTK_BUTTON_DOUBLE_CLICK]
  · intro l hl hne
    constructor <;>
      simp [container_element_pointer_button, hgrab, hl, hne,
        WLMTK_BUTTON_DOWN, WLMTK_BUTTON_UP, WLMTK_BUTTON_CLICK,
        WLMTK_BUTTON_DOUBLE_CLICK]

/-- Witness for C3: in `sC3` (capture on child 1, focus moved to child 2),
the UP is still delivered to child 1, while a CLICK is delivered nowhere
and reports unaccepted. -/
theorem claim_c3_left_button_capture_witness :
    container_element_pointer_button sC3 BTN_LEFT WLMTK_BUTTON_UP =
      some (sC3, [Ev.button 1 BTN_LEFT WLMTK_BUTTON_UP], true) ∧
    container_element_pointer_button sC3 BTN_LEFT WLMTK_BUTTON_CLICK =
      some (sC3, [], false) := by
  have h := claim_c3_left_button_capture sC3 rfl
  refine ⟨(h.2.1 1 rfl).trans (by rfl), ?_⟩
  exact (h.2.2.2.2 1 rfl (by decide)).1

/-- Claim C10: with no grab, a left-button event reaches the gesture
switch, whose fatal default branch (modelled as `none`) is taken exactly
for a phase outside {DOWN, UP, CLICK, DOUBLE_CLICK}: every recognized
phase yields a non-fatal result, every unrecognized phase aborts. -/
theorem claim_c10_fatal_phase (s : ContainerState) (phase : Nat)
    (hgrab : s.pointer_grab_element = none) :
    (container_element_pointer_button s BTN_LEFT phase = none ↔
      (phase ≠ WLMTK_BUTTON_DOWN ∧ phase ≠ WLMTK_BUTTON_UP ∧
       phase ≠ WLMTK_BUTTON_CLICK ∧ phase ≠ WLMTK_BUTTON_DOUBLE_CLICK)) := by
  by_cases h0 : phase = WLMTK_BUTTON_DOWN
  · subst h0
    cases hf : s.pointer_focus_element <;>
      simp [container_element_pointer_button, hgrab, hf, WLMTK_BUTTON_DOWN]
  · by_cases h1 : phase = WLMTK_BUTTON_UP
    · subst h1
      cases hl : s.left_button_element <;>
        simp [container_element_pointer_button, hgrab, hl,
          WLMTK_BUTTON_DOWN, WLMTK_BUTTON_UP]
    · by_cases h2 : phase = WLMTK_BUTTON_CLICK ∨
          phase = WLMTK_BUTTON_DOUBLE_CLICK
      · have hnf : container_element_pointer_button s BTN_LEFT phase ≠
            none := by
          simp only [container_element_pointer_button, hgrab]
          rw [if_pos trivial, if_neg h0, if_neg h1, if_pos h2]
          cases hl : s.left_button_element with
          | none => simp
          | some l =>
            by_cases hfl : s.pointer_focus_element = some l <;>
              simp [hfl]
        simp only [hnf, false_iff]
        intro hcon
        rcases h2 with h2 | h2
        · exact hcon.2.2.1 h2
        · exact hcon.2.2.2 h2
      · push_neg at h2
        have hf : container_element_pointer_button s BTN_LEFT phase =
            none := by
          simp only [container_element_pointer_button, hgrab]
          rw [if_pos trivial, if_neg h0, if_neg h1, if_neg (by tauto)]
        simp only [hf, true_iff]
        exact ⟨h0, h1, h2.1, h2.2⟩

/-- Witness for C10: in the empty container `sC10`, phase 7 aborts while
each of the four recognized phases does not. -/
theorem claim_c10_fatal_phase_witness :
    container_element_pointer_button sC10 BTN_LEFT 7 = none ∧
    container_element_pointer_button sC10 BTN_LEFT WLMTK_BUTTON_DOWN ≠
      none ∧
    container_element_pointer_button sC10 BTN_LEFT WLMTK_BUTTON_UP ≠ none ∧
    container_element_pointer_button sC10 BTN_LEFT WLMTK_BUTTON_CLICK ≠
      none ∧
    container_element_pointer_button sC10 BTN_LEFT
      WLMTK_BUTTON_DOUBLE_CLICK ≠ none := by
  refine ⟨(claim_c10_fatal_phase sC10 7 rfl).mpr (by decide), ?_, ?_, ?_, ?_⟩
  all_goals
    intro hcon
    revert hcon
    simp [claim_c10_fatal_phase sC10 _ rfl, WLMTK_BUTTON_DOWN,
      WLMTK_BUTTON_UP, WLMTK_BUTTON_CLICK, WLMTK_BUTTON_DOUBLE_CLICK]

/-- The aggregation loop is the `joinBox` fold of the visible children's
translated boxes from the INT32 sentinels. -/
theorem foldBoxLoop_eq_foldl (proj : Child → Box) :
    ∀ (cs : List Child) (init : Box),
    cs.foldl
      (fun acc c =>
        if c.visible then
          ⟨min acc.x1 (c.x + (proj c).x1), min acc.y1 (c.y + (proj c).y1),
           max acc.x2 (c.x + (proj c).x2), max acc.y2 (c.y + (proj c).y2)⟩
        else acc)
      init = (visibleBoxes proj cs).foldl joinBox init
  | [], init => by simp [visibleBoxes]
  | c :: cs, init => by
    by_cases hv : c.visible = true
    · have hvb : visibleBoxes proj (c :: cs) =
          translatedBox proj c :: visibleBoxes proj cs := by
        simp [visibleBoxes, List.filter_cons, hv]
      rw [hvb]
      simp only [List.foldl_cons, hv, if_true]
      rw [foldBoxLoop_eq_foldl proj cs]
      rfl
    · have hvf : c.visible = false := by simpa using hv
      have hvb : visibleBoxes proj (c :: cs) = visibleBoxes proj cs := by
        simp [visibleBoxes, List.filter_cons, hvf]
      rw [hvb]
      simp only [List.foldl_cons, hvf, Bool.false_eq_true, if_false]
      rw [foldBoxLoop_eq_foldl proj cs]

/-- Folding `joinBox` from the INT32 sentinels over a non-empty list whose
head is in C-int range equals the fold from the head (the sentinels lose
every min/max against an in-range head). -/
theorem foldl_joinBox_sentinel (b : Box) (bs : List Box)
    (hb : boxInIntRange b) :
    (b :: bs).foldl joinBox ⟨INT32_MAX, INT32_MAX, INT32_MIN, INT32_MIN⟩ =
      bs.foldl joinBox b := by
  obtain ⟨h1, h2, h3, h4, h5, h6, h7, h8⟩ := hb
  have hjb : joinBox ⟨INT32_MAX, INT32_MAX, INT32_MIN, INT32_MIN⟩ b = b := by
    simp only [joinBox]
    cases b with
    | mk bx1 by1 bx2 by2 =>
      simp only [Box.mk.injEq]
      refine ⟨min_eq_right ?_, min_eq_right ?_, max_eq_right ?_,
        max_eq_right ?_⟩ <;> simp_all
  rw [List.foldl_cons, hjb]

/-- A member of the visible-box list comes from a visible child. -/
theorem visibleBoxes_mem (proj : Child → Box) (cs : List Child) (b : Box)
    (hb : b ∈ visibleBoxes proj cs) :
    ∃ c ∈ cs, c.visible = true ∧ translatedBox proj c = b := by
  simp only [visibleBoxes, List.mem_map, List.mem_filter] at hb
  obtain ⟨c, ⟨hc, hv⟩, rfl⟩ := hb
  exact ⟨c, hc, hv, rfl⟩

/-- The generic aggregation result: the per-axis-normalized union of the
visible children's translated boxes, the zero box when none contributes. -/
theorem aggregate_eq_union (proj : Child → Box) (cs : List Child)
    (hrange : ∀ c ∈ cs, c.visible = true →
      boxInIntRange (translatedBox proj c)) :
    normalizeAxes (foldBoxLoop proj cs) =
      match unionOfBoxes (visibleBoxes proj cs) with
      | none => ⟨0, 0, 0, 0⟩
      | some u => normalizeAxes u := by
  rw [show foldBoxLoop proj cs =
      (visibleBoxes proj cs).foldl joinBox
        ⟨INT32_MAX, INT32_MAX, INT32_MIN, INT32_MIN⟩ from
    foldBoxLoop_eq_foldl proj cs _]
  cases hv : visibleBoxes proj cs with
  | nil =>
    simp only [List.foldl_nil, unionOfBoxes]
    simp [normalizeAxes, INT32_MAX, INT32_MIN]
  | cons b bs =>
    have hbmem : b ∈ visibleBoxes proj cs := by
      rw [hv]
      exact List.mem_cons_self b bs
    obtain ⟨c, hc, hcv, hcb⟩ := visibleBoxes_mem proj cs b hbmem
    have hbr : boxInIntRange b := hcb ▸ hrange c hc hcv
    rw [foldl_joinBox_sentinel b bs hbr]
    simp [unionOfBoxes]

/-- Claim C8: the container's aggregated `get_dimensions` and
`get_pointer_area` each return the union of the respective boxes of all
visible children, each translated by its child's position; invisible
children contribute nothing; with no contributing child, or a degenerate
axis (left ≥ right or top ≥ bottom), that axis is normalized to the zero
interval independently of the other axis (the `normalizeAxes` of the
union, and the zero box when the union is empty). -/
theorem claim_c8_aggregated_boxes (cs : List Child)
    (hdims : ∀ c ∈ cs, c.visible = true →
      boxInIntRange (translatedBox (fun c => c.dims) c))
    (harea : ∀ c ∈ cs, c.visible = true →
      boxInIntRange (translatedBox (fun c => c.area) c)) :
    (container_element_get_dimensions cs =
      match unionOfBoxes (visibleBoxes (fun c => c.dims) cs) with
      | none => ⟨0, 0, 0, 0⟩
      | some u => normalizeAxes u) ∧
    (container_element_get_pointer_area cs =
      match unionOfBoxes (visibleBoxes (fun c => c.area) cs) with
      | none => ⟨0, 0, 0, 0⟩
      | some u => normalizeAxes u) :=
  ⟨aggregate_eq_union (fun c => c.dims) cs hdims,
   aggregate_eq_union (fun c => c.area) cs harea⟩

/-- Witness for C8: in `csC8` the single visible child has a zero-width
dimensions box, so the x axis normalizes to the zero interval while the y
axis survives; its pointer area is non-degenerate and is returned
translated; the invisible child contributes nothing. -/
theorem claim_c8_aggregated_boxes_witness :
    container_element_get_dimensions csC8 = ⟨0, 9, 0, 14⟩ ∧
    container_element_get_pointer_area csC8 = ⟨3, 7, 5, 16⟩ := by
  have h := claim_c8_aggregated_boxes csC8
    (by
      intro c hc hv
      simp only [csC8, List.mem_cons, List.not_mem_nil, or_false] at hc
      rcases hc with rfl | rfl
      · simp only [boxInIntRange, translatedBox, INT32_MIN, INT32_MAX]
        norm_num
      · exact absurd hv (by decide))
    (by
      intro c hc hv
      simp only [csC8, List.mem_cons, List.not_mem_nil, or_false] at hc
      rcases hc with rfl | rfl
      · simp only [boxInIntRange, translatedBox, INT32_MIN, INT32_MAX]
        norm_num
      · exact absurd hv (by decide))
  exact ⟨h.1.trans (by rfl), h.2.trans (by rfl)⟩

/-- With the chain invariant, a non-empty grab below the head forces the
in-chain holder on every container above it. -/
theorem chainUp_all_above :
    ∀ (l : List ChainCont) (a : ChainCont), chainUp (a :: l) = true →
      a.grab ≠ none → ∀ s ∈ l, s.grab = some Slot.chainLink
  | [], _, _, _ => by intro s hs; cases hs
  | b :: rest, a, hch, ha => by
    have hch' : ((a.grab == none || b.grab == some Slot.chainLink) &&
        chainUp (b :: rest)) = true := hch
    simp only [Bool.and_eq_true, Bool.or_eq_true, beq_iff_eq] at hch'
    have hb : b.grab = some Slot.chainLink := by
      rcases hch'.1 with h | h
      · exact absurd h ha
      · exact h
    intro s hs
    rcases List.mem_cons.mp hs with rfl | hs
    · exact hb
    · exact chainUp_all_above rest b hch'.2 (by simp [hb]) s hs

/-- The chain invariant restricts to the tail. -/
theorem chainUp_tail (c : ChainCont) (rest : List ChainCont)
    (h : chainUp (c :: rest) = true) : chainUp rest = true := by
  cases rest with
  | nil => rfl
  | cons b bs =>
    have h' : ((c.grab == none || b.grab == some Slot.chainLink) &&
        chainUp (b :: bs)) = true := h
    exact (Bool.and_eq_true _ _ |>.mp h').2

/-- Every container in a `grabChainOk .chainLink` list holds the in-chain
descendant. -/
theorem grabChainOk_all (l : List ChainCont)
    (h : grabChainOk Slot.chainLink l) :
    ∀ s ∈ l, s.grab = some Slot.chainLink := by
  cases l with
  | nil => intro s hs; cases hs
  | cons a t =>
    intro s hs
    rcases List.mem_cons.mp hs with rfl | hs
    · exact h.1
    · exact h.2 s hs

/-- Acquisition installs the grab along the whole chain: the head records
the grabbed element, every ancestor its in-chain descendant. -/
theorem pointer_grab_installs :
    ∀ (l : List ChainCont) (e : Slot), chainUp l = true →
      grabChainOk e (wlmtk_container_pointer_grab l e).1
  | [], e, _ => by simp [wlmtk_container_pointer_grab, grabChainOk]
  | c :: rest, e, hch => by
    by_cases hc : c.grab = some e
    · rw [show (wlmtk_container_pointer_grab (c :: rest) e).1 = c :: rest from
        by simp [wlmtk_container_pointer_grab, hc]]
      exact ⟨hc, chainUp_all_above rest c hch (by simp [hc])⟩
    · rw [show (wlmtk_container_pointer_grab (c :: rest) e).1 =
          { c with grab := some e } ::
            (wlmtk_container_pointer_grab rest Slot.chainLink).1 from
        by simp [wlmtk_container_pointer_grab, hc]]
      refine ⟨rfl, ?_⟩
      exact grabChainOk_all _
        (pointer_grab_installs rest Slot.chainLink (chainUp_tail c rest hch))

/-- Acquisition preserves the shape of the chain (non-emptiness). -/
theorem pointer_grab_ne_nil (l : List ChainCont) (e : Slot)
    (h : l ≠ []) : (wlmtk_container_pointer_grab l e).1 ≠ [] := by
  cases l with
  | nil => exact absurd rfl h
  | cons c rest =>
    by_cases hc : c.grab = some e <;>
      simp [wlmtk_container_pointer_grab, hc]

/-- Release walks the installed chain, clearing every slot, and at the
root emits the full focus recomputation from the root's cached
position. -/
theorem pointer_grab_release_clears :
    ∀ (lt : List ChainCont) (lh : ChainCont) (e : Slot),
      lh.grab = some e → (∀ s ∈ lt, s.grab = some Slot.chainLink) →
      (∀ s ∈ (wlmtk_container_pointer_grab_release (lh :: lt) e).1,
        s.grab = none) ∧
      ∃ root, (lh :: lt).getLast? = some root ∧
        (wlmtk_container_pointer_grab_release (lh :: lt) e).2 =
          [ChainEv.recompute root.last_x root.last_y]
  | [], lh, e, hg, _ => by
    rw [show wlmtk_container_pointer_grab_release [lh] e =
        ([{ lh with grab := none }], [.recompute lh.last_x lh.last_y]) from
      by simp [wlmtk_container_pointer_grab_release, hg]]
    refine ⟨?_, lh, rfl, rfl⟩
    intro s hs
    rcases List.mem_singleton.mp hs with rfl
    rfl
  | r1 :: rs, lh, e, hg, ht => by
    have hr1 : r1.grab = some Slot.chainLink :=
      ht r1 (List.mem_cons_self r1 rs)
    have hrs : ∀ s ∈ rs, s.grab = some Slot.chainLink :=
      fun s hs => ht s (List.mem_cons_of_mem r1 hs)
    have ih := pointer_grab_release_clears rs r1 Slot.chainLink hr1 hrs
    rw [show wlmtk_container_pointer_grab_release (lh :: r1 :: rs) e =
        ({ lh with grab := none } ::
          (wlmtk_container_pointer_grab_release (r1 :: rs)
            Slot.chainLink).1,
         (wlmtk_container_pointer_grab_release (r1 :: rs)
            Slot.chainLink).2) from
      by simp [wlmtk_container_pointer_grab_release, hg]]
    obtain ⟨root, hroot, htr⟩ := ih.2
    refine ⟨?_, root, ?_, htr⟩
    · intro s hs
      rcases List.mem_cons.mp hs with rfl | hs
      · rfl
      · exact ih.1 s hs
    · rw [List.getLast?_cons_cons]
      exact hroot

/-- Claim C4: acquiring the grab for child `eid` at the deepest container
of a chain satisfying the reachable-state invariant makes the head record
`eid` and every ancestor record its in-chain descendant; the subsequent
release (with `eid` the current holder) clears every grab slot up to the
root and emits exactly the root's pointer-focus recomputation from its
cached last position. -/
theorem claim_c4_grab_chain (l : List ChainCont) (eid : Nat)
    (hne : l ≠ []) (hinv : chainUp l = true) :
    grabChainOk (.child eid)
      (wlmtk_container_pointer_grab l (.child eid)).1 ∧
    (∀ s ∈ (wlmtk_container_pointer_grab_release
        (wlmtk_container_pointer_grab l (.child eid)).1 (.child eid)).1,
      s.grab = none) ∧
    ∃ root,
      (wlmtk_container_pointer_grab l (.child eid)).1.getLast? =
        some root ∧
      (wlmtk_container_pointer_grab_release
        (wlmtk_container_pointer_grab l (.child eid)).1 (.child eid)).2 =
          [ChainEv.recompute root.last_x root.last_y] := by
  have hok := pointer_grab_installs l (.child eid) hinv
  have hnn := pointer_grab_ne_nil l (.child eid) hne
  cases hg : (wlmtk_container_pointer_grab l (.child eid)).1 with
  | nil => exact absurd hg hnn
  | cons gh gt =>
    rw [hg] at hok
    have hrel := pointer_grab_release_clears gt gh (.child eid) hok.1 hok.2
    exact ⟨⟨hok.1, hok.2⟩, hrel.1, hrel.2⟩

/-- Witness for C4 on the three-container chain `lC4`: the installed
chain, the cleared chain after release, and the root recompute event from
the root's cached (3,4). -/
theorem claim_c4_grab_chain_witness :
    (wlmtk_container_pointer_grab lC4 (.child 5)).1.map ChainCont.grab =
      [some (.child 5), some .chainLink, some .chainLink] ∧
    (wlmtk_container_pointer_grab_release
      (wlmtk_container_pointer_grab lC4 (.child 5)).1
        (.child 5)).1.map ChainCont.grab = [none, none, none] ∧
    (wlmtk_container_pointer_grab_release
      (wlmtk_container_pointer_grab lC4 (.child 5)).1 (.child 5)).2 =
        [ChainEv.recompute (.fin 3) (.fin 4)] ∧
    grabChainOk (.child 5) (wlmtk_container_pointer_grab lC4 (.child 5)).1 := by
  refine ⟨by rfl, by rfl, by rfl, ?_⟩
  exact (claim_c4_grab_chain lC4 5 (by decide) (by decide)).1

/-- Claim C6 counterexample: in the nested pair starting empty, setting
keyboard focus to leaf 5 at C2 records C2's super element at C1; clearing
the focus at C2 then *changes* C1's slot (it propagates the clear and C1
ends with no keyboard-focus child), refuting the claim that C1's slot is
left unchanged. -/
theorem claim_c6_counterexample :
    (set_keyboard_focus_element_c2 kb0 (some 5)).1 =
      ⟨some 5, some C1Slot.cont2⟩ ∧
    ¬ ((set_keyboard_focus_element_c2
          (set_keyboard_focus_element_c2 kb0 (some 5)).1 none).1.c1_keyboard_focus
        = (set_keyboard_focus_element_c2 kb0 (some 5)).1.c1_keyboard_focus) := by
  decide

/-- Claim C6 (amended): setting keyboard focus to a leaf at C2 records the
leaf in C2's slot and propagates upward with C2's own identity, so C1
records C2's super element; clearing keyboard focus at C2 blurs the
previous holder, clears C2's slot, and *does* propagate the clear upward:
C1's keyboard-focus slot is cleared as well (the repository's own
`test_keyboard_focus` asserts this propagation). -/
theorem claim_c6_keyboard_focus (st : TwoLevelKb) (lid : Nat)
    (hset : st.c2_keyboard_focus ≠ some lid) :
    ((set_keyboard_focus_element_c2 st (some lid)).1.c2_keyboard_focus =
        some lid ∧
     (set_keyboard_focus_element_c2 st (some lid)).1.c1_keyboard_focus =
        some C1Slot.cont2) ∧
    ∀ st2 : TwoLevelKb, ∀ f, st2.c2_keyboard_focus = some f →
      (set_keyboard_focus_element_c2 st2 none).1.c2_keyboard_focus = none ∧
      (set_keyboard_focus_element_c2 st2 none).1.c1_keyboard_focus = none ∧
      KbEv.blurC2Child f ∈ (set_keyboard_focus_element_c2 st2 none).2 := by
  constructor
  · rw [show set_keyboard_focus_element_c2 st (some lid) =
        (let st1 := { st with c2_keyboard_focus := some lid }
         let r := set_keyboard_focus_element_c1 st1 (some C1Slot.cont2)
         (r.1,
          (match st.c2_keyboard_focus with
           | some f => [KbEv.blurC2Child f]
           | none => []) ++ r.2)) from
      by simp [set_keyboard_focus_element_c2, hset]]
    by_cases hc1 : st.c1_keyboard_focus = some C1Slot.cont2
    · simp [set_keyboard_focus_element_c1, hc1]
    · cases hold : st.c1_keyboard_focus with
      | none => simp [set_keyboard_focus_element_c1, hold]
      | some sl =>
        cases sl with
        | cont2 => exact absurd hold hc1
        | leaf j =>
          simp [set_keyboard_focus_element_c1, hold,
            container_element_keyboard_blur_c2]
  · intro st2 f hf
    rw [show set_keyboard_focus_element_c2 st2 none =
        (let st1 := { st2 with c2_keyboard_focus := none }
         let r := set_keyboard_focus_element_c1 st1 none
         (r.1, [KbEv.blurC2Child f] ++ r.2)) from
      by simp [set_keyboard_focus_element_c2, hf]]
    cases hold : st2.c1_keyboard_focus with
    | none => simp [set_keyboard_focus_element_c1, hold]
    | some sl =>
      cases sl with
      | cont2 =>
        simp [set_keyboard_focus_element_c1, hold,
          container_element_keyboard_blur_c2]
      | leaf j =>
        simp [set_keyboard_focus_element_c1, hold,
          container_element_keyboard_blur_c2]

/-- Witness for the amended C6: the set/clear round trip from the empty
pair, with the blur notification to leaf 5 recorded on clearing. -/
theorem claim_c6_keyboard_focus_witness :
    ((set_keyboard_focus_element_c2 kb0 (some 5)).1.c2_keyboard_focus =
        some 5 ∧
     (set_keyboard_focus_element_c2 kb0 (some 5)).1.c1_keyboard_focus =
        some C1Slot.cont2) ∧
    (set_keyboard_focus_element_c2
        (set_keyboard_focus_element_c2 kb0 (some 5)).1
        none).1.c2_keyboard_focus = none ∧
    (set_keyboard_focus_element_c2
        (set_keyboard_focus_element_c2 kb0 (some 5)).1
        none).1.c1_keyboard_focus = none ∧
    KbEv.blurC2Child 5 ∈
      (set_keyboard_focus_element_c2
        (set_keyboard_focus_element_c2 kb0 (some 5)).1 none).2 := by
  have h := claim_c6_keyboard_focus kb0 5 (by decide)
  exact ⟨h.1, h.2 (set_keyboard_focus_element_c2 kb0 (some 5)).1 5 (by rfl)⟩

/-- Claim C7 is violated by the code: in `sC7`, child 1 holds the pointer
grab while removed child 2 holds pointer focus; the recomputation after
removal takes the grab branch and never touches the pointer-focus slot, so
after `wlmtk_container_remove_element` the pointer-focus slot still
references the removed element and the function's own closing
`BS_ASSERT(element_ptr != container_ptr->pointer_focus_element_ptr)`
(modelled as the returned boolean) fails. -/
theorem claim_c7_stale_focus_on_remove :
    (wlmtk_container_remove_element sC7 2).1.pointer_focus_element =
      some 2 ∧
    (wlmtk_container_remove_element sC7 2).2.2 = false ∧
    ∀ c ∈ (wlmtk_container_remove_element sC7 2).1.elements, c.id ≠ 2 := by
  refine ⟨by rfl, by rfl, ?_⟩
  intro c hc
  simp only [show (wlmtk_container_remove_element sC7 2).1.elements = [gC7]
    from rfl, List.mem_singleton] at hc
  subst hc
  decide

end Wlmtk
